import Mathlib

/-!
Verification of `src/courses/migrations/0002_step.py` (Django migration
creating the `Step` table with a protected foreign key to `Course`).

The first part embeds the migration's declarative content directly from the
source file.  The second part models the relational database semantics that
the spec attributes to the external migration runner and database engine
(the repository contains only the declarative artifact), and proves the
spec's claims against that model.
-/

set_option maxRecDepth 4000

namespace CoursesMigration

/-- Delete policy of a foreign key, as in `django.db.models.deletion`.
The source uses `PROTECT`. -/
inductive OnDelete where
  | protect
  | cascade
  | setNull
  deriving DecidableEq, Repr

/-- Field types appearing in the migration's `CreateModel` operation:
`AutoField`, `CharField(max_length=...)`, `TextField`,
`IntegerField(default=...)`, `ForeignKey(on_delete=..., to=...)`. -/
inductive FieldType where
  | autoField
  | charField (maxLength : Nat)
  | textField
  | integerField (default : Int)
  | foreignKey (toModel : String) (onDelete : OnDelete)
  deriving DecidableEq, Repr

/-- One column declaration of the `CreateModel` operation.  Django fields
default to `null=False` (required); none of the declared fields overrides
this, so `null` is `false` for every field below. -/
structure FieldDef where
  name : String
  type : FieldType
  primaryKey : Bool
  null : Bool
  deriving DecidableEq, Repr

/-- The five fields of the `Step` model exactly as declared in
`Migration.operations` of `0002_step.py`:
`id = AutoField(auto_created=True, primary_key=True)`,
`title = CharField(max_length=250)`, `description = TextField()`,
`order = IntegerField(default=0)`,
`course = ForeignKey(on_delete=PROTECT, to='courses.Course')`. -/
def stepFields : List FieldDef :=
  [ { name := "id", type := .autoField, primaryKey := true, null := false },
    { name := "title", type := .charField 250, primaryKey := false, null := false },
    { name := "description", type := .textField, primaryKey := false, null := false },
    { name := "order", type := .integerField 0, primaryKey := false, null := false },
    { name := "course", type := .foreignKey "courses.Course" .protect,
      primaryKey := false, null := false } ]

/-- A `migrations.CreateModel` operation: a table name and its columns. -/
structure CreateModelOp where
  name : String
  fields : List FieldDef
  deriving DecidableEq, Repr

/-- A migration: dependency markers and an operation list, as in the
`Migration` class of the source. -/
structure Migration where
  dependencies : List (String × String)
  operations : List CreateModelOp
  deriving DecidableEq, Repr

/-- The migration of `0002_step.py`: depends on `('courses', '0001_initial')`
and performs one `CreateModel('Step', ...)` operation. -/
def migration_0002_step : Migration :=
  { dependencies := [("courses", "0001_initial")],
    operations := [{ name := "Step", fields := stepFields }] }

/-- The declared bound on `title`: `max_length=250` in the source. -/
def titleMaxLength : Nat := 250

/-- A stored `Step` row.  `id` is the integer primary key, `course` holds the
primary key of the referenced Course row. -/
structure StepRow where
  id : Nat
  title : String
  description : String
  order : Int
  course : Nat
  deriving DecidableEq, Repr

/-- Modelled from the spec: the relevant portion of the target database's
state.  The repository holds only the declarative migration; the spec's §1
and §6 place the Course table (from migration `0001_initial`, not in `src/`)
and the schema bookkeeping with the external runner and engine.
`hasCourseTable` records whether the prerequisite `0001_initial` state is
applied, `stepSchema` holds the Step table's columns when it exists,
`courses` the primary keys of existing Course rows, `steps` the Step rows,
and `nextStepId` the auto-increment counter backing the `AutoField`. -/
structure DBState where
  hasCourseTable : Bool
  stepSchema : Option (List FieldDef)
  courses : List Nat
  steps : List StepRow
  nextStepId : Nat
  deriving DecidableEq, Repr

/-- Errors surfaced by the engine/runner, following the spec's §7 error
taxonomy and §8 testable properties. -/
inductive DBError where
  | dependencyError
  | tableExists
  | noTable
  | nullViolation
  | lengthViolation
  | fkViolation
  | protectViolation
  deriving DecidableEq, Repr

/-- Modelled from the spec: applying `migration_0002_step`.  Fails with a
dependency error when the prerequisite Course table is absent (§4.1 input
contract, §7 taxonomy (a)), fails when the Step table already exists
(§7 taxonomy (b)), and otherwise creates the Step table with exactly the
declared columns (§4.1 result guarantee). -/
def applyMigration (s : DBState) : Except DBError DBState :=
  if s.hasCourseTable = false then .error .dependencyError
  else if s.stepSchema.isSome then .error .tableExists
  else .ok { s with stepSchema := some stepFields }

/-- Modelled from the spec: reversing the migration drops the Step table
(and with it all Step rows and the auto-increment counter), leaving the
Course table and its rows untouched (§8). -/
def reverseMigration (s : DBState) : Except DBError DBState :=
  if s.stepSchema.isNone then .error .noTable
  else .ok { s with stepSchema := none, steps := [], nextStepId := 0 }

/-- Values supplied by application code when inserting a Step row.  `none`
stands for an omitted / NULL value; the `id` is never supplied (the
`AutoField` generates it). -/
structure StepInsert where
  title : Option String
  description : Option String
  order : Option Int
  course : Option Nat
  deriving DecidableEq, Repr

/-- Modelled from the spec: inserting a Step row under the declared schema.
`title`, `description` and `course` are required (`null=False`); `title` is
bounded by `max_length=250`; `course` must reference an existing Course row
(referential constraint); an omitted `order` stores the declared default 0;
the row's `id` is generated from the auto-increment counter. -/
def insertStep (s : DBState) (v : StepInsert) : Except DBError DBState :=
  match v.title, v.description, v.course with
  | some t, some d, some c =>
    if s.stepSchema.isNone then .error .noTable
    else if titleMaxLength < t.length then .error .lengthViolation
    else if c ∈ s.courses then
      .ok { s with
              steps := s.steps ++
                [{ id := s.nextStepId, title := t, description := d,
                   order := v.order.getD 0, course := c }],
              nextStepId := s.nextStepId + 1 }
    else .error .fkViolation
  | none, _, _ => .error .nullViolation
  | _, none, _ => .error .nullViolation
  | _, _, none => .error .nullViolation

/-- Values supplied when updating a Step row; `none` means the column is not
touched by the update. -/
structure StepUpdate where
  title : Option String
  description : Option String
  order : Option Int
  course : Option Nat
  deriving DecidableEq, Repr

/-- Whether an update supplies a `title` exceeding the declared bound. -/
def badTitleUpdate (u : StepUpdate) : Bool :=
  match u.title with
  | some t => titleMaxLength < t.length
  | none => false

/-- Whether an update supplies a `course` that references no Course row. -/
def badCourseUpdate (s : DBState) (u : StepUpdate) : Bool :=
  match u.course with
  | some c => decide (c ∉ s.courses)
  | none => false

/-- Apply an update's supplied columns to one row (the `id` is never
updated). -/
def applyUpdate (u : StepUpdate) (r : StepRow) : StepRow :=
  { r with
      title := u.title.getD r.title,
      description := u.description.getD r.description,
      order := u.order.getD r.order,
      course := u.course.getD r.course }

/-- Modelled from the spec: updating the Step row with primary key `sid`
(a no-op on zero matching rows); the declared length bound and referential
constraint are enforced on the supplied values. -/
def updateStep (s : DBState) (sid : Nat) (u : StepUpdate) : Except DBError DBState :=
  if s.stepSchema.isNone then .error .noTable
  else if badTitleUpdate u then .error .lengthViolation
  else if badCourseUpdate s u then .error .fkViolation
  else .ok { s with
               steps := s.steps.map fun r => if r.id = sid then applyUpdate u r else r }

/-- Modelled from the spec: deleting the Step row with primary key `sid`.
No constraint points at Step rows, so the deletion always succeeds
(affecting zero rows when no row matches). -/
def deleteStep (s : DBState) (sid : Nat) : DBState :=
  { s with steps := s.steps.filter fun r => r.id ≠ sid }

/-- Modelled from the spec: application code creating a Course row
(the Course model itself is declared in `0001_initial`, not in `src/`). -/
def insertCourse (s : DBState) (cid : Nat) : DBState :=
  { s with courses := s.courses ++ [cid] }

/-- Modelled from the spec: deleting the Course row with primary key `cid`
under the `PROTECT` delete policy of the `course` foreign key: the deletion
is rejected while any Step row references the Course row, and never cascades
or nulls the reference. -/
def deleteCourse (s : DBState) (cid : Nat) : Except DBError DBState :=
  if s.steps.any fun r => r.course = cid then .error .protectViolation
  else .ok { s with courses := s.courses.filter fun c => c ≠ cid }

/-- The database state an erroring operation leaves behind: a failed
statement changes nothing. -/
def runDeleteCourse (s : DBState) (cid : Nat) : DBState :=
  match deleteCourse s cid with
  | .ok s' => s'
  | .error _ => s

/-- State after an insert attempt: unchanged when the insert is rejected. -/
def runInsertStep (s : DBState) (v : StepInsert) : DBState :=
  match insertStep s v with
  | .ok s' => s'
  | .error _ => s

/-- State after a migration-application attempt: unchanged on error. -/
def runApply (s : DBState) : DBState :=
  match applyMigration s with
  | .ok s' => s'
  | .error _ => s

/-- A state just after `migration_0002_step` was applied: the Course table
exists (with any set of Course rows), the Step table exists with the
declared columns, and no Step row has been inserted yet. -/
def postMigrationState (cs : List Nat) : DBState :=
  { hasCourseTable := true, stepSchema := some stepFields,
    courses := cs, steps := [], nextStepId := 0 }

/-- A fresh state with the Course table but no Step table, as left by the
prerequisite migration `0001_initial`. -/
def preMigrationState (cs : List Nat) : DBState :=
  { hasCourseTable := true, stepSchema := none,
    courses := cs, steps := [], nextStepId := 0 }

/-- The states reachable after the migration is applied, under the row
operations the spec's §3 lifecycle grants to application code. -/
inductive Reachable : DBState → Prop where
  | init (cs : List Nat) : Reachable (postMigrationState cs)
  | insertCourseR {s : DBState} (cid : Nat) :
      Reachable s → Reachable (insertCourse s cid)
  | deleteCourseR {s s' : DBState} (cid : Nat) :
      Reachable s → deleteCourse s cid = .ok s' → Reachable s'
  | insertStepR {s s' : DBState} (v : StepInsert) :
      Reachable s → insertStep s v = .ok s' → Reachable s'
  | updateStepR {s s' : DBState} (sid : Nat) (u : StepUpdate) :
      Reachable s → updateStep s sid u = .ok s' → Reachable s'
  | deleteStepR {s : DBState} (sid : Nat) :
      Reachable s → Reachable (deleteStep s sid)

/-- The row-level invariants the declared schema enforces: every `course`
value references an existing Course row, every `title` respects the length
bound, and `id` values are generated below the counter and pairwise
distinct. -/
def StateInv (s : DBState) : Prop :=
  (∀ r ∈ s.steps, r.course ∈ s.courses) ∧
  (∀ r ∈ s.steps, r.title.length ≤ titleMaxLength) ∧
  (∀ r ∈ s.steps, r.id < s.nextStepId) ∧
  s.steps.Pairwise fun a b => a.id ≠ b.id

/-- A title one character over the declared bound, for concrete checks. -/
def longTitle : String := String.mk (List.replicate 251 'a')

/-- A concrete post-migration state with a single Course row. -/
def demoState : DBState := postMigrationState [1]

/-- A concrete well-formed insert into `demoState`. -/
def demoInsert : StepInsert :=
  { title := some "a", description := some "b", order := some 5, course := some 1 }

/-- The `order` value of the most recently inserted Step row (rows are
appended, so it is the last row). -/
def lastInsertedOrder (s : DBState) : Option Int :=
  s.steps.getLast?.map StepRow.order

/-- The generated `id` of the most recently inserted Step row. -/
def lastInsertedId (s : DBState) : Option Nat :=
  s.steps.getLast?.map StepRow.id

/-- The `title` of the most recently inserted Step row. -/
def lastInsertedTitle (s : DBState) : Option String :=
  s.steps.getLast?.map StepRow.title

/-- The `description` of the most recently inserted Step row. -/
def lastInsertedDescription (s : DBState) : Option String :=
  s.steps.getLast?.map StepRow.description

/-- No two Step rows share a primary key. -/
def idsDistinct (s : DBState) : Prop :=
  s.steps.Pairwise fun a b => a.id ≠ b.id

/-- A column list has exactly the shape declared in `0002_step.py`: the
five named columns, `id` an integer primary key, `title` bounded text,
`description` unbounded text, `order` integer with default 0, `course` a
reference to the Course model; all declared `null=False` (required). -/
def stepSchemaDeclared (cols : List FieldDef) : Prop :=
  cols.map FieldDef.name = ["id", "title", "description", "order", "course"] ∧
  cols.length = 5 ∧
  (∀ f ∈ cols, f.null = false) ∧
  (∀ f ∈ cols, f.name = "id" →
    f.type = .autoField ∧ f.primaryKey = true) ∧
  (∀ f ∈ cols, f.name = "title" →
    f.type = .charField 250 ∧ f.primaryKey = false) ∧
  (∀ f ∈ cols, f.name = "description" →
    f.type = .textField ∧ f.primaryKey = false) ∧
  (∀ f ∈ cols, f.name = "order" →
    f.type = .integerField 0 ∧ f.primaryKey = false) ∧
  (∀ f ∈ cols, f.name = "course" →
    f.type = .foreignKey "courses.Course" .protect ∧ f.primaryKey = false)

/-- Deleting the Step row `sid` keeps every other Step row. -/
def preservesOtherSteps (s : DBState) (sid : Nat) : Prop :=
  ∀ r ∈ s.steps, r.id ≠ sid → r ∈ (deleteStep s sid).steps

/-- An insert carrying empty strings for both text columns. -/
def emptyTextInsert (c : Nat) : StepInsert :=
  { title := some "", description := some "", order := none, course := some c }

/-- An insert whose `title` exceeds the declared bound. -/
def demoLongInsert : StepInsert :=
  { title := some longTitle, description := some "b", order := none, course := some 1 }

/-- An update whose `title` exceeds the declared bound. -/
def demoLongUpdate : StepUpdate :=
  { title := some longTitle, description := none, order := none, course := none }

/-- An insert omitting the required `title`. -/
def demoNullTitleInsert : StepInsert :=
  { title := none, description := some "b", order := none, course := some 1 }

/-- An insert whose `course` references no existing Course row of
`demoState`. -/
def demoBadCourseInsert : StepInsert :=
  { title := some "a", description := some "b", order := none, course := some 2 }

/-- An insert omitting the `order` column. -/
def demoNoOrderInsert : StepInsert :=
  { title := some "a", description := some "b", order := none, course := some 1 }

/-- The row produced by inserting `demoInsert` into `demoState`. -/
def demoRow : StepRow :=
  { id := 0, title := "a", description := "b", order := 5, course := 1 }

/-- The row produced by inserting `demoInsert` a second time. -/
def demoRow2 : StepRow :=
  { id := 1, title := "a", description := "b", order := 5, course := 1 }

/-- The row produced by inserting `demoNoOrderInsert` into `demoState`. -/
def demoRow0 : StepRow :=
  { id := 0, title := "a", description := "b", order := 0, course := 1 }

/-- `demoState` after one insert of `demoInsert`. -/
def demoState2 : DBState :=
  { hasCourseTable := true, stepSchema := some stepFields, courses := [1],
    steps := [demoRow], nextStepId := 1 }

/-- `demoState` after two inserts of `demoInsert`. -/
def demoState3 : DBState :=
  { hasCourseTable := true, stepSchema := some stepFields, courses := [1],
    steps := [demoRow, demoRow2], nextStepId := 2 }

/-- `demoState` after one insert of `demoNoOrderInsert`. -/
def demoState5 : DBState :=
  { hasCourseTable := true, stepSchema := some stepFields, courses := [1],
    steps := [demoRow0], nextStepId := 1 }

/-- A state in which the prerequisite migration `0001_initial` was never
applied: no Course table. -/
def noCourseState : DBState :=
  { hasCourseTable := false, stepSchema := none, courses := [],
    steps := [], nextStepId := 0 }

/-- Whether a database operation succeeded (returned a new state). -/
def succeeded {ε α : Type} (e : Except ε α) : Bool :=
  match e with
  | .ok _ => true
  | .error _ => false

/-- Deleting the Step row `sid` removes exactly the rows with that id. -/
def deletedStepsRemoved (s : DBState) (sid : Nat) : Prop :=
  (deleteStep s sid).steps = s.steps.filter fun r => r.id ≠ sid

theorem insertStep_ok {s : DBState} {v : StepInsert} {s' : DBState}
    (h : insertStep s v = .ok s') :
    ∃ t d c, v.title = some t ∧ v.description = some d ∧ v.course = some c ∧
      t.length ≤ titleMaxLength ∧ c ∈ s.courses ∧ s.stepSchema.isSome ∧
      s' = { s with
               steps := s.steps ++
                 [{ id := s.nextStepId, title := t, description := d,
                    order := v.order.getD 0, course := c }],
               nextStepId := s.nextStepId + 1 } := by
  obtain ⟨tO, dO, oO, cO⟩ := v
  cases tO with
  | none => simp [insertStep] at h
  | some t =>
    cases dO with
    | none => simp [insertStep] at h
    | some d =>
      cases cO with
      | none => simp [insertStep] at h
      | some c =>
        simp only [insertStep] at h
        split at h
        · exact absurd h (by simp)
        · split at h
          · exact absurd h (by simp)
          · split at h
            · refine ⟨t, d, c, rfl, rfl, rfl, by omega, by assumption, ?_, ?_⟩
              · simp [Option.isNone_iff_eq_none] at *
                simp [Option.isSome_iff_exists]
                cases hs : s.stepSchema with
                | none => simp_all
                | some l => simp
              · cases h; rfl
            · exact absurd h (by simp)

theorem updateStep_ok {s : DBState} {sid : Nat} {u : StepUpdate} {s' : DBState}
    (h : updateStep s sid u = .ok s') :
    s.stepSchema.isNone = false ∧ badTitleUpdate u = false ∧
      badCourseUpdate s u = false ∧
      s' = { s with
               steps := s.steps.map fun r =>
                 if r.id = sid then applyUpdate u r else r } := by
  simp only [updateStep] at h
  split at h
  · exact absurd h (by simp)
  · split at h
    · exact absurd h (by simp)
    · split at h
      · exact absurd h (by simp)
      · cases h
        refine ⟨?_, ?_, ?_, rfl⟩ <;>
          simp_all [Option.isNone_iff_eq_none, Option.isSome_iff_ne_none]

theorem deleteCourse_ok {s : DBState} {cid : Nat} {s' : DBState}
    (h : deleteCourse s cid = .ok s') :
    (∀ r ∈ s.steps, r.course ≠ cid) ∧
      s' = { s with courses := s.courses.filter fun c => c ≠ cid } := by
  simp only [deleteCourse] at h
  split at h
  · exact absurd h (by simp)
  · cases h
    refine ⟨?_, rfl⟩
    intro r hr hc
    rename_i hany
    apply hany
    simp only [List.any_eq_true, decide_eq_true_eq]
    exact ⟨r, hr, hc⟩

theorem applyUpdate_id (u : StepUpdate) (r : StepRow) :
    (applyUpdate u r).id = r.id := rfl

theorem reachable_inv : ∀ s : DBState, Reachable s → StateInv s := by
  intro s hs
  induction hs with
  | init cs => simp [StateInv, postMigrationState]
  | insertCourseR cid _ ih =>
    obtain ⟨h1, h2, h3, h4⟩ := ih
    refine ⟨?_, h2, h3, h4⟩
    intro r hr
    exact List.mem_append_left _ (h1 r hr)
  | deleteCourseR cid _ hdel ih =>
    obtain ⟨h1, h2, h3, h4⟩ := ih
    obtain ⟨hnone, rfl⟩ := deleteCourse_ok hdel
    refine ⟨?_, h2, h3, h4⟩
    intro r hr
    simp only [List.mem_filter, decide_eq_true_eq]
    exact ⟨h1 r hr, hnone r hr⟩
  | insertStepR v _ hins ih =>
    obtain ⟨h1, h2, h3, h4⟩ := ih
    obtain ⟨t, d, c, ht, hd, hc, hlen, hmem, _, rfl⟩ := insertStep_ok hins
    refine ⟨?_, ?_, ?_, ?_⟩
    · intro r hr
      rcases List.mem_append.mp hr with hr | hr
      · exact h1 r hr
      · simp only [List.mem_singleton] at hr
        subst hr
        exact hmem
    · intro r hr
      rcases List.mem_append.mp hr with hr | hr
      · exact h2 r hr
      · simp only [List.mem_singleton] at hr
        subst hr
        exact hlen
    · intro r hr
      rcases List.mem_append.mp hr with hr | hr
      · exact Nat.lt_succ_of_lt (h3 r hr)
      · simp only [List.mem_singleton] at hr
        subst hr
        exact Nat.lt_succ_self _
    · rw [List.pairwise_append]
      refine ⟨h4, List.pairwise_singleton _ _, ?_⟩
      intro a ha b hb
      simp only [List.mem_singleton] at hb
      subst hb
      exact Nat.ne_of_lt (h3 a ha)
  | updateStepR sid u _ hupd ih =>
    obtain ⟨h1, h2, h3, h4⟩ := ih
    obtain ⟨_, hbt, hbc, rfl⟩ := updateStep_ok hupd
    refine ⟨?_, ?_, ?_, ?_⟩
    · intro r hr
      simp only [List.mem_map] at hr
      obtain ⟨r0, hr0, rfl⟩ := hr
      by_cases hid : r0.id = sid
      · simp only [hid, if_pos rfl]
        show (applyUpdate u r0).course ∈ _
        simp only [applyUpdate]
        cases hcu : u.course with
        | none => simpa using h1 r0 hr0
        | some c =>
          simp only [badCourseUpdate, hcu, decide_eq_false_iff_not,
            Decidable.not_not] at hbc
          simpa using hbc
      · simp only [if_neg hid]
        exact h1 r0 hr0
    · intro r hr
      simp only [List.mem_map] at hr
      obtain ⟨r0, hr0, rfl⟩ := hr
      by_cases hid : r0.id = sid
      · simp only [hid, if_pos rfl]
        show (applyUpdate u r0).title.length ≤ _
        simp only [applyUpdate]
        cases htu : u.title with
        | none => simpa using h2 r0 hr0
        | some t =>
          simp only [badTitleUpdate, htu, decide_eq_false_iff_not,
            Nat.not_lt] at hbt
          simpa using hbt
      · simp only [if_neg hid]
        exact h2 r0 hr0
    · intro r hr
      simp only [List.mem_map] at hr
      obtain ⟨r0, hr0, rfl⟩ := hr
      by_cases hid : r0.id = sid
      · simpa [hid, applyUpdate_id] using h3 r0 hr0
      · simpa [hid] using h3 r0 hr0
    · refine List.Pairwise.map _ ?_ h4
      intro a b hab
      have hid : ∀ x : StepRow,
          (if x.id = sid then applyUpdate u x else x).id = x.id := by
        intro x
        by_cases hx : x.id = sid <;> simp [hx, applyUpdate_id]
      show (if a.id = sid then applyUpdate u a else a).id ≠
        (if b.id = sid then applyUpdate u b else b).id
      rw [hid a, hid b]
      exact hab
  | deleteStepR sid _ ih =>
    obtain ⟨h1, h2, h3, h4⟩ := ih
    refine ⟨?_, ?_, ?_, ?_⟩
    · intro r hr
      exact h1 r (List.mem_of_mem_filter hr)
    · intro r hr
      exact h2 r (List.mem_of_mem_filter hr)
    · intro r hr
      exact h3 r (List.mem_of_mem_filter hr)
    · exact h4.sublist (List.filter_sublist _)

theorem insert_demo1 : insertStep demoState demoInsert = .ok demoState2 := by rfl

theorem insert_demo2 : insertStep demoState2 demoInsert = .ok demoState3 := by rfl

theorem reachable_demoState3 : Reachable demoState3 :=
  Reachable.insertStepR demoInsert
    (Reachable.insertStepR demoInsert (Reachable.init [1]) insert_demo1)
    insert_demo2

/-- C1: for every database state containing a Course row with at least one
dependent Step row, deleting that Course row fails with a protect/restrict
violation and the whole state — the Course row and all of its Step rows
included — is unchanged afterward (no cascade, no nulling). -/
theorem course_delete_protect (s : DBState) (cid : Nat)
    (_hcid : cid ∈ s.courses) (hdep : ∃ r ∈ s.steps, r.course = cid) :
    deleteCourse s cid = .error .protectViolation ∧
      runDeleteCourse s cid = s := by
  obtain ⟨r, hr, hc⟩ := hdep
  have hany : (s.steps.any fun r => r.course = cid) = true := by
    simp only [List.any_eq_true, decide_eq_true_eq]
    exact ⟨r, hr, hc⟩
  refine ⟨?_, ?_⟩ <;> simp [deleteCourse, runDeleteCourse, hany]

/-- Witness for C1 at a concrete state whose single Step row protects
Course 1. -/
theorem course_delete_protect_witness :
    deleteCourse demoState2 1 = .error .protectViolation ∧
      runDeleteCourse demoState2 1 = demoState2 :=
  course_delete_protect demoState2 1 (by decide) (by decide)

/-- C2: applying the migration to a schema state that already contains the
Course table (and not yet the Step table) succeeds and yields a Step table
with exactly the five declared columns, their declared types and
nullability. -/
theorem migration_creates_step_table (s : DBState)
    (hc : s.hasCourseTable = true) (hn : s.stepSchema = none) :
    succeeded (applyMigration s) = true ∧
      (runApply s).stepSchema = some stepFields ∧
      stepSchemaDeclared stepFields := by
  have happ : applyMigration s = .ok { s with stepSchema := some stepFields } := by
    simp [applyMigration, hc, hn]
  refine ⟨by simp [succeeded, happ], by simp [runApply, happ], ?_⟩
  unfold stepSchemaDeclared
  decide

/-- Witness for C2 at a concrete pre-migration state. -/
theorem migration_creates_step_table_witness :
    succeeded (applyMigration (preMigrationState [1])) = true ∧
      (runApply (preMigrationState [1])).stepSchema = some stepFields ∧
      stepSchemaDeclared stepFields :=
  migration_creates_step_table (preMigrationState [1]) rfl rfl

/-- C3: in every reachable post-migration state every Step row's `course`
references an existing Course row, and inserting a Step row whose `course`
matches no Course row fails with a referential-integrity (foreign key)
violation and leaves the state unchanged. -/
theorem step_course_referential_integrity :
    (∀ s, Reachable s → ∀ r ∈ s.steps, r.course ∈ s.courses) ∧
    (∀ s v t d c, v.title = some t → t.length ≤ titleMaxLength →
      v.description = some d → v.course = some c →
      s.stepSchema.isSome = true → c ∉ s.courses →
      insertStep s v = .error .fkViolation ∧ runInsertStep s v = s) := by
  constructor
  · intro s hs
    exact (reachable_inv s hs).1
  · intro s v t d c ht hlen hd hc hschema hmem
    have hnone : s.stepSchema.isNone = false := by
      cases h : s.stepSchema <;> simp_all
    have herr : insertStep s v = .error .fkViolation := by
      simp only [insertStep, ht, hd, hc, hnone]
      rw [if_neg (by simp), if_neg (Nat.not_lt.mpr hlen), if_neg hmem]
    exact ⟨herr, by simp [runInsertStep, herr]⟩

/-- Witness for C3: a row of a concrete reachable state references an
existing Course, and a dangling insert is rejected without a state
change. -/
theorem step_course_referential_integrity_witness :
    demoRow.course ∈ demoState3.courses ∧
      (insertStep demoState demoBadCourseInsert = .error .fkViolation ∧
        runInsertStep demoState demoBadCourseInsert = demoState) :=
  ⟨step_course_referential_integrity.1 demoState3 reachable_demoState3
      demoRow (by decide),
    step_course_referential_integrity.2 demoState demoBadCourseInsert
      "a" "b" 2 rfl (by decide) rfl rfl rfl (by decide)⟩

/-- C4: applying the migration when the prerequisite Course table is absent
fails with a dependency error and leaves the schema state unchanged (no
Step table is created). -/
theorem migration_missing_dependency (s : DBState)
    (h : s.hasCourseTable = false) :
    applyMigration s = .error .dependencyError ∧ runApply s = s := by
  have h1 : applyMigration s = .error .dependencyError := by
    simp [applyMigration, h]
  exact ⟨h1, by simp [runApply, h1]⟩

/-- Witness for C4 at a concrete state without the Course table. -/
theorem migration_missing_dependency_witness :
    applyMigration noCourseState = .error .dependencyError ∧
      runApply noCourseState = noCourseState :=
  migration_missing_dependency noCourseState rfl

/-- C5: in every reachable post-migration state every stored `title` has at
most 250 characters; an insert or update supplying a longer `title` is
rejected, and an insert omitting `title` (NULL) is rejected. -/
theorem step_title_bounded :
    (∀ s, Reachable s → ∀ r ∈ s.steps, r.title.length ≤ titleMaxLength) ∧
    (∀ s v t, v.title = some t → titleMaxLength < t.length →
      succeeded (insertStep s v) = false) ∧
    (∀ s sid u t, u.title = some t → titleMaxLength < t.length →
      succeeded (updateStep s sid u) = false) ∧
    (∀ s v, v.title = none → succeeded (insertStep s v) = false) := by
  refine ⟨?_, ?_, ?_, ?_⟩
  · intro s hs
    exact (reachable_inv s hs).2.1
  · intro s v t ht hlen
    cases hres : insertStep s v with
    | error e => rfl
    | ok s' =>
      obtain ⟨t', d, c, ht', _, _, hlen', _, _, _⟩ := insertStep_ok hres
      rw [ht] at ht'
      simp only [Option.some.injEq] at ht'
      subst ht'
      omega
  · intro s sid u t ht hlen
    cases hres : updateStep s sid u with
    | error e => rfl
    | ok s' =>
      obtain ⟨_, hbt, _, _⟩ := updateStep_ok hres
      simp only [badTitleUpdate, ht, decide_eq_false_iff_not] at hbt
      omega
  · intro s v ht
    cases hres : insertStep s v with
    | error e => rfl
    | ok s' =>
      obtain ⟨t', d, c, ht', _⟩ := insertStep_ok hres
      rw [ht] at ht'
      simp at ht'

/-- Witness for C5: a stored title of a concrete reachable state is within
the bound, and concrete over-long or NULL titles are rejected. -/
theorem step_title_bounded_witness :
    demoRow.title.length ≤ titleMaxLength ∧
      succeeded (insertStep demoState demoLongInsert) = false ∧
      succeeded (updateStep demoState2 0 demoLongUpdate) = false ∧
      succeeded (insertStep demoState demoNullTitleInsert) = false :=
  ⟨step_title_bounded.1 demoState3 reachable_demoState3 demoRow (by decide),
    step_title_bounded.2.1 demoState demoLongInsert longTitle rfl (by decide),
    step_title_bounded.2.2.1 demoState2 0 demoLongUpdate longTitle rfl (by decide),
    step_title_bounded.2.2.2 demoState demoNullTitleInsert rfl⟩

/-- C6: an insert that omits `order` stores the integer 0 in the new row,
and no uniqueness or contiguity of `order` is imposed: a reachable state
holds two distinct rows of the same course sharing `order` value 5. -/
theorem order_default_zero :
    (∀ s v s', v.order = none → insertStep s v = .ok s' →
      lastInsertedOrder s' = some 0) ∧
    (∃ s, Reachable s ∧ ∃ r1 ∈ s.steps, ∃ r2 ∈ s.steps,
      r1.id ≠ r2.id ∧ r1.course = r2.course ∧ r1.order = r2.order ∧
        r1.order = 5) := by
  constructor
  · intro s v s' hord hins
    obtain ⟨t, d, c, _, _, _, _, _, _, rfl⟩ := insertStep_ok hins
    simp [lastInsertedOrder, List.getLast?_concat, hord]
  · refine ⟨demoState3, reachable_demoState3, demoRow, ?_, demoRow2, ?_, ?_, ?_, ?_, ?_⟩ <;> decide

/-- Witness for C6: a concrete insert omitting `order` stores 0. -/
theorem order_default_zero_witness :
    lastInsertedOrder demoState5 = some 0 :=
  order_default_zero.1 demoState demoNoOrderInsert demoState5 rfl (by rfl)

/-- C7: `id` is the generated primary key: an insert assigns the counter
value as the new row's id and bumps the counter, and in every reachable
state no two Step rows share an id. -/
theorem step_id_primary_key :
    (∀ s v s', insertStep s v = .ok s' →
      lastInsertedId s' = some s.nextStepId ∧
        s'.nextStepId = s.nextStepId + 1) ∧
    (∀ s, Reachable s → idsDistinct s) := by
  constructor
  · intro s v s' hins
    obtain ⟨t, d, c, _, _, _, _, _, _, rfl⟩ := insertStep_ok hins
    constructor
    · simp [lastInsertedId, List.getLast?_concat]
    · rfl
  · intro s hs
    exact (reachable_inv s hs).2.2.2

/-- Witness for C7: the generated id of a concrete insert and the
distinctness of the ids of a concrete reachable state. -/
theorem step_id_primary_key_witness :
    (lastInsertedId demoState2 = some demoState.nextStepId ∧
      demoState2.nextStepId = demoState.nextStepId + 1) ∧
      idsDistinct demoState3 :=
  ⟨step_id_primary_key.1 demoState demoInsert demoState2 insert_demo1,
    step_id_primary_key.2 demoState3 reachable_demoState3⟩

/-- C8: on a fresh state with the Course table, applying the migration
succeeds and reversing it immediately afterwards succeeds and restores the
original state exactly — the Step table is gone and the Course table and
its rows are untouched. -/
theorem migration_reverse_round_trip (s : DBState)
    (hc : s.hasCourseTable = true) (hn : s.stepSchema = none)
    (hsteps : s.steps = []) (hid : s.nextStepId = 0) :
    succeeded (applyMigration s) = true ∧
      reverseMigration (runApply s) = .ok s := by
  have happ : applyMigration s = .ok { s with stepSchema := some stepFields } := by
    simp [applyMigration, hc, hn]
  refine ⟨by simp [succeeded, happ], ?_⟩
  simp only [runApply, happ, reverseMigration]
  simp only [Option.isNone_some, Bool.false_eq_true, if_false]
  cases s
  simp_all

/-- Witness for C8 at a concrete pre-migration state with one Course row. -/
theorem migration_reverse_round_trip_witness :
    succeeded (applyMigration (preMigrationState [1])) = true ∧
      reverseMigration (runApply (preMigrationState [1])) =
        .ok (preMigrationState [1]) :=
  migration_reverse_round_trip (preMigrationState [1]) rfl rfl rfl rfl

/-- C9: the empty string is accepted for both `title` and `description`:
inserting a Step with both text columns empty succeeds and stores the empty
strings. -/
theorem empty_text_accepted (s : DBState) (c : Nat)
    (hschema : s.stepSchema.isSome = true) (hc : c ∈ s.courses) :
    succeeded (insertStep s (emptyTextInsert c)) = true ∧
      lastInsertedTitle (runInsertStep s (emptyTextInsert c)) = some "" ∧
      lastInsertedDescription (runInsertStep s (emptyTextInsert c)) =
        some "" := by
  have hnone : s.stepSchema.isNone = false := by
    cases h : s.stepSchema <;> simp_all
  have hins : insertStep s (emptyTextInsert c) =
      .ok { s with
              steps := s.steps ++
                [{ id := s.nextStepId, title := "", description := "",
                   order := 0, course := c }],
              nextStepId := s.nextStepId + 1 } := by
    simp [insertStep, emptyTextInsert, hnone, hc, titleMaxLength]
  refine ⟨by simp [succeeded, hins], ?_, ?_⟩ <;>
    simp [runInsertStep, hins, lastInsertedTitle, lastInsertedDescription,
      List.getLast?_concat]

/-- Witness for C9 at a concrete post-migration state. -/
theorem empty_text_accepted_witness :
    succeeded (insertStep demoState (emptyTextInsert 1)) = true ∧
      lastInsertedTitle (runInsertStep demoState (emptyTextInsert 1)) =
        some "" ∧
      lastInsertedDescription (runInsertStep demoState (emptyTextInsert 1)) =
        some "" :=
  empty_text_accepted demoState 1 rfl (by decide)

/-- C10: deleting a Step row always succeeds whatever its `course` value:
it removes exactly the rows with the given id and changes nothing else —
the Course table, the Course rows, the Step schema and every other Step row
are untouched. -/
theorem step_delete_frame (s : DBState) (sid : Nat) :
    (deleteStep s sid).courses = s.courses ∧
      (deleteStep s sid).hasCourseTable = s.hasCourseTable ∧
      (deleteStep s sid).stepSchema = s.stepSchema ∧
      deletedStepsRemoved s sid ∧
      preservesOtherSteps s sid := by
  refine ⟨rfl, rfl, rfl, rfl, ?_⟩
  intro r hr hne
  simp [deleteStep, List.mem_filter, hr, hne]

/-- Witness for C10 at a concrete state with two Step rows. -/
theorem step_delete_frame_witness :
    (deleteStep demoState3 0).courses = demoState3.courses ∧
      (deleteStep demoState3 0).hasCourseTable = demoState3.hasCourseTable ∧
      (deleteStep demoState3 0).stepSchema = demoState3.stepSchema ∧
      deletedStepsRemoved demoState3 0 ∧
      preservesOtherSteps demoState3 0 :=
  step_delete_frame demoState3 0
